import Mathlib

/-!
Verification of the resource-accounting substrate of the Stellar contract
host (Budget/CostModel, footprint-gated Storage, and per-instruction
metering), developed against the repository sources.  The Budget, Storage
and Footprint implementations themselves are not shipped in this source
tree (only their tests, benchmark harnesses and cost-runner declarations
are), so those components are modelled from the specification text; the
wasm-instruction cost-runner declarations, which are in the tree, are
embedded directly.
-/

/-- Modelled from the spec: the fixed, versioned enumeration of chargeable
operation classes (`CostType` / `ContractCostType`).  The enumeration
itself lives in the missing xdr module; the variant names here follow the
cost-type modules present in the source tree
(`benches/common/cost_types/mod.rs` and `src/cost_runner/cost_types`). -/
inductive ContractCostType where
  | WasmInsnExec
  | WasmMemAlloc
  | HostMemAlloc
  | HostMemCpy
  | HostMemCmp
  | InvokeHostFunction
  | VmInstantiation
  | ChargeBudget
  | ComputeSha256Hash
  | ComputeEd25519PubKey
  | VerifyEd25519Sig
  | ValSer
  | ValDeser
  | ValXdrConv
  | VisitObject
  | GuardFrame
  | ImMapNew
  | ImMapEntry
  | ImVecNew
  | ImVecEntry
deriving DecidableEq

/-- Modelled from the spec: a `CostModel` is a `(const, linear)` pair of
non-negative integer coefficients (one such pair each for CPU and for
memory); the implementation is in the missing budget module. -/
structure CostModel where
  const : Nat
  linear : Nat
deriving DecidableEq

/-- Modelled from the spec: `cost(n) = const + linear*n`, integer
arithmetic only. -/
def CostModel.cost (m : CostModel) (n : Nat) : Nat :=
  m.const + m.linear * n

/-- The error raised by a failed charge. -/
inductive BudgetError where
  | budgetExceeded
deriving DecidableEq

/-- Modelled from the spec: the `Budget` record — a CostType-indexed
CostModel table (separately for CPU and memory), the consumed counters and
the limits.  The implementation is in the missing budget module. -/
@[ext]
structure Budget where
  cpu_model : ContractCostType → CostModel
  mem_model : ContractCostType → CostModel
  cpu_consumed : Nat
  mem_consumed : Nat
  cpu_limit : Nat
  mem_limit : Nat

/-- Modelled from the spec: `charge(cost_type, input_size)` computes
`cpu = model.cpu(input_size)` and `mem = model.mem(input_size)`; if either
would push consumed past its limit it returns an error and leaves both
counters untouched; otherwise it increments both and returns success.
The post-state of the (in Rust, mutable) budget is returned explicitly. -/
def Budget.charge (b : Budget) (ty : ContractCostType) (input : Nat) :
    Except BudgetError Unit × Budget :=
  if b.cpu_limit < b.cpu_consumed + (b.cpu_model ty).cost input ∨
      b.mem_limit < b.mem_consumed + (b.mem_model ty).cost input then
    (Except.error BudgetError.budgetExceeded, b)
  else
    (Except.ok (),
      { b with
        cpu_consumed := b.cpu_consumed + (b.cpu_model ty).cost input
        mem_consumed := b.mem_consumed + (b.mem_model ty).cost input })

/-- The CPU cost a budget's model table assigns to one charge request. -/
def cpuCost (b : Budget) (c : ContractCostType × Nat) : Nat :=
  (b.cpu_model c.1).cost c.2

/-- The memory cost a budget's model table assigns to one charge request. -/
def memCost (b : Budget) (c : ContractCostType × Nat) : Nat :=
  (b.mem_model c.1).cost c.2

/-- Total CPU cost of a sequence of charge requests under a budget's
model table. -/
def cpuTotal (b : Budget) (cs : List (ContractCostType × Nat)) : Nat :=
  (cs.map (cpuCost b)).sum

/-- Total memory cost of a sequence of charge requests under a budget's
model table. -/
def memTotal (b : Budget) (cs : List (ContractCostType × Nat)) : Nat :=
  (cs.map (memCost b)).sum

/-- Run a sequence of charges against a budget, stopping at the first
failure; returns the outcome of the last charge attempted together with
the final budget state. -/
def chargeAll (b : Budget) : List (ContractCostType × Nat) →
    Except BudgetError Unit × Budget
  | [] => (Except.ok (), b)
  | c :: rest =>
    match b.charge c.1 c.2 with
    | (Except.ok _, b2) => chargeAll b2 rest
    | (Except.error e, b2) => (Except.error e, b2)

theorem cpuTotal_nil (b : Budget) : cpuTotal b [] = 0 := rfl

theorem memTotal_nil (b : Budget) : memTotal b [] = 0 := rfl

theorem cpuTotal_cons (b : Budget) (c : ContractCostType × Nat)
    (cs : List (ContractCostType × Nat)) :
    cpuTotal b (c :: cs) = cpuCost b c + cpuTotal b cs := by
  simp [cpuTotal]

theorem memTotal_cons (b : Budget) (c : ContractCostType × Nat)
    (cs : List (ContractCostType × Nat)) :
    memTotal b (c :: cs) = memCost b c + memTotal b cs := by
  simp [memTotal]

/-- If every running partial sum of the charges stays within both limits
(relative to the starting consumed counters), all the charges succeed,
the model table and the limits are unchanged, and the final consumed
counters hold exactly the starting counters plus the totals. -/
theorem chargeAll_ok :
    ∀ (cs : List (ContractCostType × Nat)) (b : Budget),
      (∀ i : Nat, i < cs.length →
        b.cpu_consumed + cpuTotal b (cs.take (i + 1)) ≤ b.cpu_limit ∧
        b.mem_consumed + memTotal b (cs.take (i + 1)) ≤ b.mem_limit) →
      (chargeAll b cs).1 = Except.ok () ∧
      (chargeAll b cs).2.cpu_model = b.cpu_model ∧
      (chargeAll b cs).2.mem_model = b.mem_model ∧
      (chargeAll b cs).2.cpu_limit = b.cpu_limit ∧
      (chargeAll b cs).2.mem_limit = b.mem_limit ∧
      (chargeAll b cs).2.cpu_consumed = b.cpu_consumed + cpuTotal b cs ∧
      (chargeAll b cs).2.mem_consumed = b.mem_consumed + memTotal b cs
  | [], b, _ => by
    simp [chargeAll, cpuTotal_nil, memTotal_nil]
  | c :: rest, b, h => by
    have h0 := h 0 (by simp)
    simp only [List.take_succ_cons, List.take_zero, cpuTotal_cons, memTotal_cons,
      cpuTotal_nil, memTotal_nil, Nat.add_zero] at h0
    have hcharge : b.charge c.1 c.2 =
        (Except.ok (),
          { b with
            cpu_consumed := b.cpu_consumed + cpuCost b c
            mem_consumed := b.mem_consumed + memCost b c }) := by
      unfold Budget.charge
      rw [if_neg]
      · rfl
      · push_neg
        exact ⟨h0.1, h0.2⟩
    have h2 : ∀ i : Nat, i < rest.length →
        ({ b with
            cpu_consumed := b.cpu_consumed + cpuCost b c
            mem_consumed := b.mem_consumed + memCost b c } : Budget).cpu_consumed +
          cpuTotal
            { b with
              cpu_consumed := b.cpu_consumed + cpuCost b c
              mem_consumed := b.mem_consumed + memCost b c } (rest.take (i + 1)) ≤
          ({ b with
            cpu_consumed := b.cpu_consumed + cpuCost b c
            mem_consumed := b.mem_consumed + memCost b c } : Budget).cpu_limit ∧
        ({ b with
            cpu_consumed := b.cpu_consumed + cpuCost b c
            mem_consumed := b.mem_consumed + memCost b c } : Budget).mem_consumed +
          memTotal
            { b with
              cpu_consumed := b.cpu_consumed + cpuCost b c
              mem_consumed := b.mem_consumed + memCost b c } (rest.take (i + 1)) ≤
          ({ b with
            cpu_consumed := b.cpu_consumed + cpuCost b c
            mem_consumed := b.mem_consumed + memCost b c } : Budget).mem_limit := by
      intro i hi
      have hsucc := h (i + 1) (by simpa using Nat.succ_lt_succ hi)
      simp only [List.take_succ_cons, cpuTotal_cons, memTotal_cons] at hsucc
      have ecpu : cpuTotal
          { b with
            cpu_consumed := b.cpu_consumed + cpuCost b c
            mem_consumed := b.mem_consumed + memCost b c } (rest.take (i + 1)) =
          cpuTotal b (rest.take (i + 1)) := rfl
      have emem : memTotal
          { b with
            cpu_consumed := b.cpu_consumed + cpuCost b c
            mem_consumed := b.mem_consumed + memCost b c } (rest.take (i + 1)) =
          memTotal b (rest.take (i + 1)) := rfl
      rw [ecpu, emem]
      constructor
      · have := hsucc.1
        show b.cpu_consumed + cpuCost b c + cpuTotal b (rest.take (i + 1)) ≤ b.cpu_limit
        omega
      · have := hsucc.2
        show b.mem_consumed + memCost b c + memTotal b (rest.take (i + 1)) ≤ b.mem_limit
        omega
    obtain ⟨i1, i2, i3, i4, i5, i6, i7⟩ := chargeAll_ok rest
      { b with
        cpu_consumed := b.cpu_consumed + cpuCost b c
        mem_consumed := b.mem_consumed + memCost b c } h2
    simp only [chargeAll, hcharge]
    refine ⟨i1, i2, i3, i4, i5, ?_, ?_⟩
    · rw [i6, cpuTotal_cons]
      show b.cpu_consumed + cpuCost b c + cpuTotal b rest = b.cpu_consumed + (cpuCost b c + cpuTotal b rest)
      omega
    · rw [i7, memTotal_cons]
      show b.mem_consumed + memCost b c + memTotal b rest = b.mem_consumed + (memCost b c + memTotal b rest)
      omega

/-- Running charges over an appended list first runs the front list; when
the front list succeeds, the run continues from its final state. -/
theorem chargeAll_append :
    ∀ (l1 l2 : List (ContractCostType × Nat)) (b : Budget),
      (chargeAll b l1).1 = Except.ok () →
      chargeAll b (l1 ++ l2) = chargeAll (chargeAll b l1).2 l2
  | [], _, _, _ => rfl
  | c :: l1, l2, b, hok => by
    simp only [chargeAll, List.cons_append] at hok ⊢
    rcases hch : b.charge c.1 c.2 with ⟨r, b2⟩
    cases r with
    | ok u =>
      simp only [hch] at hok ⊢
      exact chargeAll_append l1 l2 b2 hok
    | error e =>
      simp only [hch] at hok
      exact absurd hok (by simp)

/-- Claim C4: for every CostType t and all input sizes a ≤ b, the CPU and
memory cost models are monotone non-decreasing; in particular every
CostModel of shape cost(n) = const + linear*n over non-negative integer
coefficients is monotone non-decreasing in n. -/
theorem c4_cost_model_monotone (b : Budget) (t : ContractCostType)
    (m : CostModel) (a1 a2 : Nat) (h : a1 ≤ a2) :
    (b.cpu_model t).cost a1 ≤ (b.cpu_model t).cost a2 ∧
    (b.mem_model t).cost a1 ≤ (b.mem_model t).cost a2 ∧
    m.cost a1 ≤ m.cost a2 := by
  refine ⟨?_, ?_, ?_⟩ <;>
    exact Nat.add_le_add_left (Nat.mul_le_mul (Nat.le_refl _) h) _

/-- A concrete budget used by witnesses: every cost type charges 5 CPU and
0 memory per call, with limits 12 (CPU) and 100 (memory). -/
def budgetW : Budget :=
  { cpu_model := fun _ => ⟨5, 0⟩
    mem_model := fun _ => ⟨0, 0⟩
    cpu_consumed := 0
    mem_consumed := 0
    cpu_limit := 12
    mem_limit := 100 }

theorem c4_cost_model_monotone_witness :
    3 ≤ 5 ∧
    ((budgetW.cpu_model ContractCostType.ImMapEntry).cost 3 ≤
        (budgetW.cpu_model ContractCostType.ImMapEntry).cost 5 ∧
      (budgetW.mem_model ContractCostType.ImMapEntry).cost 3 ≤
        (budgetW.mem_model ContractCostType.ImMapEntry).cost 5 ∧
      (CostModel.mk 1 2).cost 3 ≤ (CostModel.mk 1 2).cost 5) :=
  ⟨by decide,
    c4_cost_model_monotone budgetW ContractCostType.ImMapEntry ⟨1, 2⟩ 3 5 (by decide)⟩

theorem cpuTotal_append (b : Budget) (l1 l2 : List (ContractCostType × Nat)) :
    cpuTotal b (l1 ++ l2) = cpuTotal b l1 + cpuTotal b l2 := by
  simp [cpuTotal]

theorem memTotal_append (b : Budget) (l1 l2 : List (ContractCostType × Nat)) :
    memTotal b (l1 ++ l2) = memTotal b l1 + memTotal b l2 := by
  simp [memTotal]

theorem cpuTotal_singleton (b : Budget) (c : ContractCostType × Nat) :
    cpuTotal b [c] = cpuCost b c := by
  simp [cpuTotal]

theorem memTotal_singleton (b : Budget) (c : ContractCostType × Nat) :
    memTotal b [c] = memCost b c := by
  simp [memTotal]

/-- Claim C1: for every Budget and every finite sequence of charges whose
running cost sum first exceeds a limit at charge k (0-based: every prefix
of at most k charges stays within both limits, and the sum through charge
k exceeds one of them), the first k charges succeed and after each prefix
the consumed counters equal the exact partial sums of the charged costs;
charge k returns BudgetExceeded and leaves both cpu_consumed and
mem_consumed exactly as they were after charge k-1 (no partial charge of
either counter). -/
theorem c1_exact_exhaustion (b : Budget) (cs : List (ContractCostType × Nat))
    (k : Nat)
    (hb1 : b.cpu_consumed = 0) (hb2 : b.mem_consumed = 0)
    (hk : k < cs.length)
    (hok : ∀ i : Nat, i < k →
      cpuTotal b (cs.take (i + 1)) ≤ b.cpu_limit ∧
      memTotal b (cs.take (i + 1)) ≤ b.mem_limit)
    (hexceed : b.cpu_limit < cpuTotal b (cs.take (k + 1)) ∨
      b.mem_limit < memTotal b (cs.take (k + 1))) :
    (∀ i : Nat, i ≤ k →
      (chargeAll b (cs.take i)).1 = Except.ok () ∧
      (chargeAll b (cs.take i)).2.cpu_consumed = cpuTotal b (cs.take i) ∧
      (chargeAll b (cs.take i)).2.mem_consumed = memTotal b (cs.take i)) ∧
    (chargeAll b (cs.take (k + 1))).1 = Except.error BudgetError.budgetExceeded ∧
    (chargeAll b (cs.take (k + 1))).2.cpu_consumed = cpuTotal b (cs.take k) ∧
    (chargeAll b (cs.take (k + 1))).2.mem_consumed = memTotal b (cs.take k) := by
  have hpre : ∀ i : Nat, i ≤ k →
      (chargeAll b (cs.take i)).1 = Except.ok () ∧
      (chargeAll b (cs.take i)).2.cpu_model = b.cpu_model ∧
      (chargeAll b (cs.take i)).2.mem_model = b.mem_model ∧
      (chargeAll b (cs.take i)).2.cpu_limit = b.cpu_limit ∧
      (chargeAll b (cs.take i)).2.mem_limit = b.mem_limit ∧
      (chargeAll b (cs.take i)).2.cpu_consumed = cpuTotal b (cs.take i) ∧
      (chargeAll b (cs.take i)).2.mem_consumed = memTotal b (cs.take i) := by
    intro i hi
    have hhyp : ∀ j : Nat, j < (cs.take i).length →
        b.cpu_consumed + cpuTotal b ((cs.take i).take (j + 1)) ≤ b.cpu_limit ∧
        b.mem_consumed + memTotal b ((cs.take i).take (j + 1)) ≤ b.mem_limit := by
      intro j hj
      have hjlen : j < i := by
        rw [List.length_take] at hj
        omega
      have htt1 : (cs.take i).take (j + 1) = cs.take (j + 1) := by
        rw [List.take_take, Nat.min_eq_left (by omega)]
      have hjk := hok j (lt_of_lt_of_le hjlen hi)
      rw [htt1, hb1, hb2]
      constructor <;> omega
    obtain ⟨o1, o2, o3, o4, o5, o6, o7⟩ := chargeAll_ok (cs.take i) b hhyp
    exact ⟨o1, o2, o3, o4, o5, by rw [o6, hb1, Nat.zero_add],
      by rw [o7, hb2, Nat.zero_add]⟩
  obtain ⟨p1, p2, p3, p4, p5, p6, p7⟩ := hpre k (Nat.le_refl k)
  have htk : cs.take (k + 1) = cs.take k ++ [cs.get ⟨k, hk⟩] := by
    rw [List.take_succ, List.getElem?_eq_getElem hk]
    rfl
  have happ := chargeAll_append (cs.take k) [cs.get ⟨k, hk⟩] b p1
  rw [← htk] at happ
  have hcond : (chargeAll b (cs.take k)).2.cpu_limit <
        (chargeAll b (cs.take k)).2.cpu_consumed +
          ((chargeAll b (cs.take k)).2.cpu_model (cs.get ⟨k, hk⟩).1).cost
            (cs.get ⟨k, hk⟩).2 ∨
      (chargeAll b (cs.take k)).2.mem_limit <
        (chargeAll b (cs.take k)).2.mem_consumed +
          ((chargeAll b (cs.take k)).2.mem_model (cs.get ⟨k, hk⟩).1).cost
            (cs.get ⟨k, hk⟩).2 := by
    rcases hexceed with hcpu | hmem
    · left
      rw [p4, p6, p2]
      have he : cpuTotal b (cs.take (k + 1)) =
          cpuTotal b (cs.take k) + cpuCost b (cs.get ⟨k, hk⟩) := by
        rw [htk, cpuTotal_append, cpuTotal_singleton]
      show b.cpu_limit < cpuTotal b (cs.take k) + cpuCost b (cs.get ⟨k, hk⟩)
      omega
    · right
      rw [p5, p7, p3]
      have he : memTotal b (cs.take (k + 1)) =
          memTotal b (cs.take k) + memCost b (cs.get ⟨k, hk⟩) := by
        rw [htk, memTotal_append, memTotal_singleton]
      show b.mem_limit < memTotal b (cs.take k) + memCost b (cs.get ⟨k, hk⟩)
      omega
  have hfail : (chargeAll b (cs.take k)).2.charge (cs.get ⟨k, hk⟩).1
      (cs.get ⟨k, hk⟩).2 =
      (Except.error BudgetError.budgetExceeded, (chargeAll b (cs.take k)).2) := by
    unfold Budget.charge
    rw [if_pos hcond]
  have hrun : chargeAll b (cs.take (k + 1)) =
      (Except.error BudgetError.budgetExceeded, (chargeAll b (cs.take k)).2) := by
    rw [happ]
    simp only [chargeAll, hfail]
  refine ⟨fun i hi => ⟨(hpre i hi).1, (hpre i hi).2.2.2.2.2.1,
    (hpre i hi).2.2.2.2.2.2⟩, ?_, ?_, ?_⟩
  · rw [hrun]
  · rw [hrun]
    exact p6
  · rw [hrun]
    exact p7

/-- A concrete charge sequence used by the C1 witness: three charges of
cost 5 each against `budgetW` (CPU limit 12), so the running sum 5, 10, 15
first exceeds the limit at the third charge. -/
def csW : List (ContractCostType × Nat) :=
  [(ContractCostType.ImMapEntry, 1), (ContractCostType.ImMapEntry, 1),
    (ContractCostType.ImMapEntry, 1)]

theorem c1_exact_exhaustion_witness :
    (budgetW.cpu_consumed = 0 ∧ budgetW.mem_consumed = 0 ∧ 2 < csW.length ∧
      (∀ i : Nat, i < 2 →
        cpuTotal budgetW (csW.take (i + 1)) ≤ budgetW.cpu_limit ∧
        memTotal budgetW (csW.take (i + 1)) ≤ budgetW.mem_limit) ∧
      (budgetW.cpu_limit < cpuTotal budgetW (csW.take (2 + 1)) ∨
        budgetW.mem_limit < memTotal budgetW (csW.take (2 + 1)))) ∧
    ((∀ i : Nat, i ≤ 2 →
      (chargeAll budgetW (csW.take i)).1 = Except.ok () ∧
      (chargeAll budgetW (csW.take i)).2.cpu_consumed = cpuTotal budgetW (csW.take i) ∧
      (chargeAll budgetW (csW.take i)).2.mem_consumed = memTotal budgetW (csW.take i)) ∧
    (chargeAll budgetW (csW.take (2 + 1))).1 = Except.error BudgetError.budgetExceeded ∧
    (chargeAll budgetW (csW.take (2 + 1))).2.cpu_consumed = cpuTotal budgetW (csW.take 2) ∧
    (chargeAll budgetW (csW.take (2 + 1))).2.mem_consumed = memTotal budgetW (csW.take 2)) :=
  ⟨⟨rfl, rfl, by decide, by decide, by decide⟩,
    c1_exact_exhaustion budgetW csW 2 rfl rfl (by decide) (by decide) (by decide)⟩

/-- The Scenario A budget: CPU limit 10_000, the `ImMapEntry` CPU
CostModel is `{const:10, linear:1}`, all other models are zero. -/
def budgetA : Budget :=
  { cpu_model := fun t =>
      match t with
      | ContractCostType.ImMapEntry => ⟨10, 1⟩
      | _ => ⟨0, 0⟩
    mem_model := fun _ => ⟨0, 0⟩
    cpu_consumed := 0
    mem_consumed := 0
    cpu_limit := 10000
    mem_limit := 10000 }

/-- Claim C5 counterexample: under the spec's own cost formula
`cost(n) = const + linear*n`, a `charge(ImMapEntry, 100)` against the
CostModel `{const:10, linear:1}` costs 110, not 1010; nine such charges
leave consumed = 990, not 9090; and the tenth identical charge succeeds
(reaching 1100) instead of failing. -/
theorem c5_scenario_a_counterexample :
    (budgetA.cpu_model ContractCostType.ImMapEntry).cost 100 = 110 ∧
    ¬ (budgetA.cpu_model ContractCostType.ImMapEntry).cost 100 = 1010 ∧
    (chargeAll budgetA (List.replicate 9 (ContractCostType.ImMapEntry, 100))).1 =
      Except.ok () ∧
    (chargeAll budgetA
      (List.replicate 9 (ContractCostType.ImMapEntry, 100))).2.cpu_consumed = 990 ∧
    (chargeAll budgetA (List.replicate 10 (ContractCostType.ImMapEntry, 100))).1 =
      Except.ok () ∧
    (chargeAll budgetA
      (List.replicate 10 (ContractCostType.ImMapEntry, 100))).2.cpu_consumed = 1100 :=
  ⟨rfl, by decide, rfl, by decide, rfl, by decide⟩

/-- Claim C5 (amended): with cpu_limit 10_000 and the ImMapEntry CostModel
{const:10, linear:1}, each of nine successive charge(ImMapEntry, 1000)
calls costs exactly 1010, the nine calls all succeed leaving
consumed = 9090, and a tenth identical charge fails (it would bring
consumed to 10100 > 10000) leaving consumed at 9090. -/
theorem c5_scenario_a_amended :
    (budgetA.cpu_model ContractCostType.ImMapEntry).cost 1000 = 1010 ∧
    (chargeAll budgetA (List.replicate 9 (ContractCostType.ImMapEntry, 1000))).1 =
      Except.ok () ∧
    (chargeAll budgetA
      (List.replicate 9 (ContractCostType.ImMapEntry, 1000))).2.cpu_consumed = 9090 ∧
    (chargeAll budgetA (List.replicate 10 (ContractCostType.ImMapEntry, 1000))).1 =
      Except.error BudgetError.budgetExceeded ∧
    (chargeAll budgetA
      (List.replicate 10 (ContractCostType.ImMapEntry, 1000))).2.cpu_consumed = 9090 :=
  ⟨rfl, rfl, by decide, rfl, by decide⟩

/-- The subset of wasm instructions the calibration is interested in,
from `cost_runner/cost_types/wasm_insn_exec.rs` (the fixed set of
instruction classes: control flow, local/global access, memory
load/store, arithmetic/comparison, calls direct/indirect/imported). -/
inductive WasmInsnType where
  | LocalGet
  | LocalSet
  | LocalTee
  | Br
  | BrIfEqz
  | BrIfNez
  | ReturnIfNez
  | BrTable
  | Unreachable
  | Return
  | CallLocal
  | CallImport
  | CallIndirect
  | Drop
  | Select
  | GlobalGet
  | GlobalSet
  | I64Load
  | I64Load8S
  | I64Load16S
  | I64Load32S
  | I64Store
  | I64Store8
  | I64Store16
  | I64Store32
  | MemorySize
  | MemoryGrow
  | Const
  | I64Eqz
  | I64Eq
  | I64Ne
  | I64LtS
  | I64GtS
  | I64LeS
  | I64GeS
  | I64Clz
  | I64Ctz
  | I64Popcnt
  | I64Add
  | I64Sub
  | I64Mul
  | I64DivS
  | I64RemS
  | I64And
  | I64Or
  | I64Xor
  | I64Shl
  | I64ShrS
  | I64Rotl
  | I64Rotr
deriving DecidableEq

/-- The per-instruction cost-runner declarations of
`cost_runner/cost_types/wasm_insn_exec.rs` lines 183-227: each
`impl_wasm_insn_runner!(XRun, X)` declares a runner for instruction class
X whose `COST_TYPE` is `ContractCostType::WasmInsnExec`.  The list holds
the (instruction class, declared COST_TYPE) pair of every runner, in
source order. -/
def wasmInsnRunners : List (WasmInsnType × ContractCostType) :=
  [(WasmInsnType.Const, ContractCostType.WasmInsnExec),
    (WasmInsnType.Drop, ContractCostType.WasmInsnExec),
    (WasmInsnType.Select, ContractCostType.WasmInsnExec),
    (WasmInsnType.Br, ContractCostType.WasmInsnExec),
    (WasmInsnType.BrTable, ContractCostType.WasmInsnExec),
    (WasmInsnType.LocalGet, ContractCostType.WasmInsnExec),
    (WasmInsnType.LocalSet, ContractCostType.WasmInsnExec),
    (WasmInsnType.LocalTee, ContractCostType.WasmInsnExec),
    (WasmInsnType.CallLocal, ContractCostType.WasmInsnExec),
    (WasmInsnType.CallImport, ContractCostType.WasmInsnExec),
    (WasmInsnType.CallIndirect, ContractCostType.WasmInsnExec),
    (WasmInsnType.GlobalGet, ContractCostType.WasmInsnExec),
    (WasmInsnType.GlobalSet, ContractCostType.WasmInsnExec),
    (WasmInsnType.I64Store, ContractCostType.WasmInsnExec),
    (WasmInsnType.I64Load, ContractCostType.WasmInsnExec),
    (WasmInsnType.I64Load8S, ContractCostType.WasmInsnExec),
    (WasmInsnType.I64Load16S, ContractCostType.WasmInsnExec),
    (WasmInsnType.I64Load32S, ContractCostType.WasmInsnExec),
    (WasmInsnType.I64Store8, ContractCostType.WasmInsnExec),
    (WasmInsnType.I64Store16, ContractCostType.WasmInsnExec),
    (WasmInsnType.I64Store32, ContractCostType.WasmInsnExec),
    (WasmInsnType.MemorySize, ContractCostType.WasmInsnExec),
    (WasmInsnType.MemoryGrow, ContractCostType.WasmInsnExec),
    (WasmInsnType.I64Clz, ContractCostType.WasmInsnExec),
    (WasmInsnType.I64Ctz, ContractCostType.WasmInsnExec),
    (WasmInsnType.I64Popcnt, ContractCostType.WasmInsnExec),
    (WasmInsnType.I64Eqz, ContractCostType.WasmInsnExec),
    (WasmInsnType.I64Eq, ContractCostType.WasmInsnExec),
    (WasmInsnType.I64Ne, ContractCostType.WasmInsnExec),
    (WasmInsnType.I64LtS, ContractCostType.WasmInsnExec),
    (WasmInsnType.I64GtS, ContractCostType.WasmInsnExec),
    (WasmInsnType.I64LeS, ContractCostType.WasmInsnExec),
    (WasmInsnType.I64GeS, ContractCostType.WasmInsnExec),
    (WasmInsnType.I64Add, ContractCostType.WasmInsnExec),
    (WasmInsnType.I64Sub, ContractCostType.WasmInsnExec),
    (WasmInsnType.I64Mul, ContractCostType.WasmInsnExec),
    (WasmInsnType.I64DivS, ContractCostType.WasmInsnExec),
    (WasmInsnType.I64RemS, ContractCostType.WasmInsnExec),
    (WasmInsnType.I64And, ContractCostType.WasmInsnExec),
    (WasmInsnType.I64Or, ContractCostType.WasmInsnExec),
    (WasmInsnType.I64Xor, ContractCostType.WasmInsnExec),
    (WasmInsnType.I64Shl, ContractCostType.WasmInsnExec),
    (WasmInsnType.I64ShrS, ContractCostType.WasmInsnExec),
    (WasmInsnType.I64Rotl, ContractCostType.WasmInsnExec),
    (WasmInsnType.I64Rotr, ContractCostType.WasmInsnExec)]

/-- Claim C3 counterexample: a constant push (`Const`) and an imported
call (`CallImport`) are instruction classes the spec says differ by an
order of magnitude in true cost, yet their runners declare one and the
same CostType (`WasmInsnExec`) — indeed every declared runner does — so
two instructions of different classes are never charged under different
CostTypes. -/
theorem c3_per_class_cost_type_counterexample :
    WasmInsnType.Const ≠ WasmInsnType.CallImport ∧
    (WasmInsnType.Const, ContractCostType.WasmInsnExec) ∈ wasmInsnRunners ∧
    (WasmInsnType.CallImport, ContractCostType.WasmInsnExec) ∈ wasmInsnRunners ∧
    (wasmInsnRunners.all fun p => decide (p.2 = ContractCostType.WasmInsnExec)) = true := by
  refine ⟨by decide, by decide, by decide, by decide⟩

/-- Claim C3 (amended): the metering hook classifies each concrete
instruction into one of a fixed set of instruction classes
(`WasmInsnType`), but every instruction-class runner declares the single
CostType `WasmInsnExec` (charged with input_size = 1 per instruction), so
instructions of different classes are charged under the same CostType,
not under per-class CostTypes. -/
theorem c3_single_wasm_insn_cost_type (p : WasmInsnType × ContractCostType)
    (hp : p ∈ wasmInsnRunners) : p.2 = ContractCostType.WasmInsnExec := by
  fin_cases hp <;> rfl

theorem c3_single_wasm_insn_cost_type_witness :
    (WasmInsnType.Br, ContractCostType.WasmInsnExec) ∈ wasmInsnRunners ∧
    (WasmInsnType.Br, ContractCostType.WasmInsnExec).2 = ContractCostType.WasmInsnExec :=
  ⟨by decide, c3_single_wasm_insn_cost_type (WasmInsnType.Br, ContractCostType.WasmInsnExec)
    (by decide)⟩

/-- Modelled from the spec: during `Running`, the external engine invokes
the per-instruction callback, which charges the `WasmInsnExec` CostType
with input_size = 1 for the concrete instruction (every declared runner
carries that single CostType, see `wasmInsnRunners`). -/
def insnCostType (_i : WasmInsnType) : ContractCostType :=
  ContractCostType.WasmInsnExec

/-- Terminal observation of a module run: either the whole instruction
list executed (`ok`) or the run halted with BudgetExceeded
(`budgetExceeded`).  Both record the final budget, the number of
instructions that executed, and the number of charges made. -/
inductive ExecOutcome where
  | ok (b : Budget) (executed charges : Nat)
  | budgetExceeded (b : Budget) (executed charges : Nat)

/-- Did the run execute the whole module (no BudgetExceeded halt)? -/
def ExecOutcome.completed : ExecOutcome → Bool
  | ExecOutcome.ok _ _ _ => true
  | ExecOutcome.budgetExceeded _ _ _ => false

/-- Number of instructions that executed. -/
def ExecOutcome.executed : ExecOutcome → Nat
  | ExecOutcome.ok _ e _ => e
  | ExecOutcome.budgetExceeded _ e _ => e

/-- Number of charges the hook made. -/
def ExecOutcome.charges : ExecOutcome → Nat
  | ExecOutcome.ok _ _ ch => ch
  | ExecOutcome.budgetExceeded _ _ ch => ch

/-- Final cpu_consumed counter. -/
def ExecOutcome.cpuFinal : ExecOutcome → Nat
  | ExecOutcome.ok b _ _ => b.cpu_consumed
  | ExecOutcome.budgetExceeded b _ _ => b.cpu_consumed

/-- Final mem_consumed counter. -/
def ExecOutcome.memFinal : ExecOutcome → Nat
  | ExecOutcome.ok b _ _ => b.mem_consumed
  | ExecOutcome.budgetExceeded b _ _ => b.mem_consumed

/-- Modelled from the spec: the `Running` phase of an executing module.
Before each instruction performs its work the hook charges the budget; a
failed charge transitions immediately to Halted(BudgetExceeded), so the
instruction whose charge failed, and every later instruction, never
executes. -/
def runInsnsFrom (b : Budget) (executed charges : Nat) :
    List WasmInsnType → ExecOutcome
  | [] => ExecOutcome.ok b executed charges
  | i :: rest =>
    match b.charge (insnCostType i) 1 with
    | (Except.ok _, b2) => runInsnsFrom b2 (executed + 1) (charges + 1) rest
    | (Except.error _, b2) => ExecOutcome.budgetExceeded b2 executed (charges + 1)

/-- Run a module's instruction list from a fresh frame. -/
def runModule (b : Budget) (insns : List WasmInsnType) : ExecOutcome :=
  runInsnsFrom b 0 0 insns

/-- The `const_drop` module of `benches/common/cost_types/wasm_insn_exec.rs`:
n repetitions of a `Const` push followed by a `Drop` (2n instructions). -/
def constDropModule : Nat → List WasmInsnType
  | 0 => []
  | n + 1 => WasmInsnType.Const :: WasmInsnType.Drop :: constDropModule n

theorem constDropModule_length (n : Nat) :
    (constDropModule n).length = 2 * n := by
  induction n with
  | zero => rfl
  | succ m ih =>
    simp [constDropModule, ih]
    omega

/-- A single instruction charge succeeds exactly when the CPU headroom
admits the per-instruction cost, assuming the memory model charges 0 per
instruction and the memory counter is within its limit. -/
theorem insn_charge_eq (b : Budget) (i : WasmInsnType) (c : Nat)
    (hc : (b.cpu_model ContractCostType.WasmInsnExec).cost 1 = c)
    (hm : (b.mem_model ContractCostType.WasmInsnExec).cost 1 = 0)
    (hml : b.mem_consumed ≤ b.mem_limit) :
    b.charge (insnCostType i) 1 =
      if b.cpu_limit < b.cpu_consumed + c then
        (Except.error BudgetError.budgetExceeded, b)
      else
        (Except.ok (),
          { b with
            cpu_consumed := b.cpu_consumed + c
            mem_consumed := b.mem_consumed + 0 }) := by
  unfold Budget.charge insnCostType
  rw [hc, hm]
  by_cases hcpu : b.cpu_limit < b.cpu_consumed + c
  · rw [if_pos (Or.inl hcpu), if_pos hcpu]
  · rw [if_neg, if_neg hcpu]
    push_neg
    exact ⟨le_of_not_lt hcpu, by omega⟩

/-- When the whole instruction list fits in the CPU headroom, every
instruction executes, each making exactly one charge, and the counters
advance by exactly the per-instruction costs. -/
theorem runInsnsFrom_ok :
    ∀ (l : List WasmInsnType) (b : Budget) (e ch c : Nat),
      (b.cpu_model ContractCostType.WasmInsnExec).cost 1 = c →
      (b.mem_model ContractCostType.WasmInsnExec).cost 1 = 0 →
      b.mem_consumed ≤ b.mem_limit →
      b.cpu_consumed + l.length * c ≤ b.cpu_limit →
      (runInsnsFrom b e ch l).completed = true ∧
      (runInsnsFrom b e ch l).executed = e + l.length ∧
      (runInsnsFrom b e ch l).charges = ch + l.length ∧
      (runInsnsFrom b e ch l).cpuFinal = b.cpu_consumed + l.length * c ∧
      (runInsnsFrom b e ch l).memFinal = b.mem_consumed
  | [], b, e, ch, c, _, _, _, _ => by
    simp [runInsnsFrom, ExecOutcome.completed, ExecOutcome.executed,
      ExecOutcome.charges, ExecOutcome.cpuFinal, ExecOutcome.memFinal]
  | i :: rest, b, e, ch, c, hc, hm, hml, h => by
    have hlen : (i :: rest).length = rest.length + 1 := by simp
    have hmul : (rest.length + 1) * c = rest.length * c + c := Nat.succ_mul _ _
    have hmul0 : (i :: rest).length * c = rest.length * c + c := by
      rw [hlen, Nat.succ_mul]
    rw [runInsnsFrom, insn_charge_eq b i c hc hm hml, if_neg (by omega)]
    have ih := runInsnsFrom_ok rest
      { b with
        cpu_consumed := b.cpu_consumed + c
        mem_consumed := b.mem_consumed + 0 } (e + 1) (ch + 1) c hc hm
      (by show b.mem_consumed + 0 ≤ b.mem_limit; omega)
      (by show b.cpu_consumed + c + rest.length * c ≤ b.cpu_limit; omega)
    obtain ⟨i1, i2, i3, i4, i5⟩ := ih
    have i4n : (runInsnsFrom
        { b with
          cpu_consumed := b.cpu_consumed + c
          mem_consumed := b.mem_consumed + 0 } (e + 1) (ch + 1) rest).cpuFinal =
        b.cpu_consumed + c + rest.length * c := i4
    have i5n : (runInsnsFrom
        { b with
          cpu_consumed := b.cpu_consumed + c
          mem_consumed := b.mem_consumed + 0 } (e + 1) (ch + 1) rest).memFinal =
        b.mem_consumed + 0 := i5
    refine ⟨i1, ?_, ?_, ?_, ?_⟩
    · rw [i2, hlen]
      omega
    · rw [i3, hlen]
      omega
    · rw [i4n, hlen]
      omega
    · rw [i5n]
      omega

/-- When the cumulative charge first exceeds the CPU limit at instruction
k+1 (k per-instruction charges fit, k+1 do not), the run halts with
BudgetExceeded after exactly k executed instructions and k+1 charges,
with consumed exactly the k-instruction sum: no later instruction
executes and the failed charge is not applied. -/
theorem runInsnsFrom_exceeded :
    ∀ (l : List WasmInsnType) (b : Budget) (e ch k c : Nat),
      (b.cpu_model ContractCostType.WasmInsnExec).cost 1 = c →
      (b.mem_model ContractCostType.WasmInsnExec).cost 1 = 0 →
      b.mem_consumed ≤ b.mem_limit →
      b.cpu_consumed + k * c ≤ b.cpu_limit →
      b.cpu_limit < b.cpu_consumed + (k + 1) * c →
      k < l.length →
      (runInsnsFrom b e ch l).completed = false ∧
      (runInsnsFrom b e ch l).executed = e + k ∧
      (runInsnsFrom b e ch l).charges = ch + k + 1 ∧
      (runInsnsFrom b e ch l).cpuFinal = b.cpu_consumed + k * c ∧
      (runInsnsFrom b e ch l).memFinal = b.mem_consumed
  | [], _, _, _, k, _, _, _, _, _, _, hkl => absurd hkl (by simp)
  | i :: rest, b, e, ch, k, c, hc, hm, hml, hk1, hk2, hkl => by
    rw [runInsnsFrom, insn_charge_eq b i c hc hm hml]
    cases k with
    | zero =>
      rw [if_pos (by omega)]
      exact ⟨rfl, by show e = e + 0; omega, by show ch + 1 = ch + 0 + 1; omega,
        by show b.cpu_consumed = b.cpu_consumed + 0 * c; omega, rfl⟩
    | succ m =>
      have hmul1 : (m + 1) * c = m * c + c := Nat.succ_mul _ _
      have hmul2 : (m + 1 + 1) * c = (m + 1) * c + c := Nat.succ_mul _ _
      have hfit : b.cpu_consumed + c ≤ b.cpu_limit := by omega
      rw [if_neg (by omega)]
      have hlen : (i :: rest).length = rest.length + 1 := by simp
      have ih := runInsnsFrom_exceeded rest
        { b with
          cpu_consumed := b.cpu_consumed + c
          mem_consumed := b.mem_consumed + 0 } (e + 1) (ch + 1) m c hc hm
        (by show b.mem_consumed + 0 ≤ b.mem_limit; omega)
        (by show b.cpu_consumed + c + m * c ≤ b.cpu_limit; omega)
        (by show b.cpu_limit < b.cpu_consumed + c + (m + 1) * c; omega)
        (by omega)
      obtain ⟨i1, i2, i3, i4, i5⟩ := ih
      have i4n : (runInsnsFrom
          { b with
            cpu_consumed := b.cpu_consumed + c
            mem_consumed := b.mem_consumed + 0 } (e + 1) (ch + 1) rest).cpuFinal =
          b.cpu_consumed + c + m * c := i4
      have i5n : (runInsnsFrom
          { b with
            cpu_consumed := b.cpu_consumed + c
            mem_consumed := b.mem_consumed + 0 } (e + 1) (ch + 1) rest).memFinal =
          b.mem_consumed + 0 := i5
      refine ⟨i1, ?_, ?_, ?_, ?_⟩
      · rw [i2]
        omega
      · rw [i3]
        omega
      · rw [i4n]
        omega
      · rw [i5n]
        omega

/-- Claim C6: a module executing 5000 const+drop instructions causes
exactly 5000 charges to the WasmInsnExec CostType; and for a Budget limit
below the resulting total, execution transitions to
Halted(BudgetExceeded) at exactly the instruction where the cumulative
charge first exceeds the limit (k per-instruction charges fit, the
k+1-st does not), having executed exactly k instructions and made k+1
charges — no instruction after that point executes. -/
theorem c6_const_drop_metering (b : Budget) (c : Nat)
    (hc : (b.cpu_model ContractCostType.WasmInsnExec).cost 1 = c)
    (hm : (b.mem_model ContractCostType.WasmInsnExec).cost 1 = 0)
    (h0 : b.cpu_consumed = 0) (hm0 : b.mem_consumed = 0) :
    (5000 * c ≤ b.cpu_limit →
      (runModule b (constDropModule 2500)).completed = true ∧
      (runModule b (constDropModule 2500)).executed = 5000 ∧
      (runModule b (constDropModule 2500)).charges = 5000 ∧
      (runModule b (constDropModule 2500)).cpuFinal = 5000 * c ∧
      (runModule b (constDropModule 2500)).memFinal = 0) ∧
    (∀ k : Nat, k * c ≤ b.cpu_limit → b.cpu_limit < (k + 1) * c → k < 5000 →
      (runModule b (constDropModule 2500)).completed = false ∧
      (runModule b (constDropModule 2500)).executed = k ∧
      (runModule b (constDropModule 2500)).charges = k + 1 ∧
      (runModule b (constDropModule 2500)).cpuFinal = k * c ∧
      (runModule b (constDropModule 2500)).memFinal = 0) := by
  have hlen : (constDropModule 2500).length = 2 * 2500 := constDropModule_length 2500
  constructor
  · intro hfit
    obtain ⟨i1, i2, i3, i4, i5⟩ := runInsnsFrom_ok (constDropModule 2500) b 0 0 c
      hc hm (by omega) (by rw [hlen]; omega)
    refine ⟨i1, ?_, ?_, ?_, ?_⟩
    · rw [runModule, i2, hlen]
    · rw [runModule, i3, hlen]
    · rw [runModule, i4, hlen, h0]
      omega
    · rw [runModule, i5, hm0]
  · intro k hk1 hk2 hk5000
    obtain ⟨i1, i2, i3, i4, i5⟩ := runInsnsFrom_exceeded (constDropModule 2500) b
      0 0 k c hc hm (by omega) (by omega) (by omega) (by rw [hlen]; omega)
    refine ⟨i1, ?_, ?_, ?_, ?_⟩
    · rw [runModule, i2]
      omega
    · rw [runModule, i3]
      omega
    · rw [runModule, i4, h0]
      omega
    · rw [runModule, i5, hm0]

/-- Budget for the success half of the C6 witness: 3 CPU per instruction,
limit 15000, enough for all 5000 instructions. -/
def budgetRunOk : Budget :=
  { cpu_model := fun _ => ⟨3, 0⟩
    mem_model := fun _ => ⟨0, 0⟩
    cpu_consumed := 0
    mem_consumed := 0
    cpu_limit := 15000
    mem_limit := 100 }

/-- Budget for the exhaustion half of the C6 witness: 2 CPU per
instruction, limit 9, so 4 instructions fit and the 5th charge fails. -/
def budgetRunExceed : Budget :=
  { cpu_model := fun _ => ⟨2, 0⟩
    mem_model := fun _ => ⟨0, 0⟩
    cpu_consumed := 0
    mem_consumed := 0
    cpu_limit := 9
    mem_limit := 100 }

theorem c6_const_drop_metering_witness :
    ((runModule budgetRunOk (constDropModule 2500)).completed = true ∧
      (runModule budgetRunOk (constDropModule 2500)).executed = 5000 ∧
      (runModule budgetRunOk (constDropModule 2500)).charges = 5000 ∧
      (runModule budgetRunOk (constDropModule 2500)).cpuFinal = 5000 * 3 ∧
      (runModule budgetRunOk (constDropModule 2500)).memFinal = 0) ∧
    ((runModule budgetRunExceed (constDropModule 2500)).completed = false ∧
      (runModule budgetRunExceed (constDropModule 2500)).executed = 4 ∧
      (runModule budgetRunExceed (constDropModule 2500)).charges = 4 + 1 ∧
      (runModule budgetRunExceed (constDropModule 2500)).cpuFinal = 4 * 2 ∧
      (runModule budgetRunExceed (constDropModule 2500)).memFinal = 0) :=
  ⟨(c6_const_drop_metering budgetRunOk 3 rfl rfl rfl rfl).1 (by decide),
    (c6_const_drop_metering budgetRunExceed 2 rfl rfl rfl rfl).2 4 (by decide)
      (by decide) (by decide)⟩

/-- Access mode of a footprint entry (the `AccessType` of the storage
module, used by `test.rs`). -/
inductive AccessType where
  | ReadOnly
  | ReadWrite
deriving DecidableEq

/-- Error raised by footprint-gated storage. -/
inductive StorageError where
  | accessViolation
  | missingEntry
deriving DecidableEq

/-- Modelled from the spec: the Footprint — an ordered map from ledger
keys to access modes, fixed before execution.  Keys are kept abstract and
the map is represented by its lookup function; the implementation is in
the missing storage module. -/
structure Footprint (K : Type) where
  find : K → Option AccessType

/-- The empty footprint (`Footprint::default()` in `test.rs`). -/
def Footprint.empty (K : Type) : Footprint K :=
  ⟨fun _ => none⟩

/-- Modelled from the spec: `record_access(key, mode)` inserts the key if
absent; if present, upgrades ReadOnly→ReadWrite but rejects a
ReadWrite→ReadOnly downgrade (access, once granted, cannot be revoked
within a transaction). -/
def Footprint.record_access {K : Type} [DecidableEq K]
    (f : Footprint K) (k : K) (m : AccessType) : Footprint K :=
  match f.find k with
  | none => ⟨fun k2 => if k2 = k then some m else f.find k2⟩
  | some AccessType.ReadOnly =>
    match m with
    | AccessType.ReadWrite =>
      ⟨fun k2 => if k2 = k then some AccessType.ReadWrite else f.find k2⟩
    | AccessType.ReadOnly => f
  | some AccessType.ReadWrite => f

/-- Modelled from the spec: `enforce(key, mode)`, called by every Storage
operation, fails with AccessViolation if the key is absent from the
Footprint, or if a write/delete is requested against a ReadOnly entry. -/
def Footprint.enforce_access {K : Type} (f : Footprint K) (k : K)
    (m : AccessType) : Except StorageError Unit :=
  match f.find k, m with
  | none, _ => Except.error StorageError.accessViolation
  | some AccessType.ReadOnly, AccessType.ReadOnly => Except.ok ()
  | some AccessType.ReadOnly, AccessType.ReadWrite =>
    Except.error StorageError.accessViolation
  | some AccessType.ReadWrite, _ => Except.ok ()

/-- Modelled from the spec: Storage in enforcing mode — the pre-declared
footprint plus the snapshot-with-overlay map.  `map k = none` means never
loaded, `some none` an explicit tombstone/known-absent entry, and
`some (some v)` a present entry.  (The Budget charge made between the
access check and the map operation is independent of footprint gating and
is not modelled here.) -/
structure Storage (K V : Type) where
  footprint : Footprint K
  map : K → Option (Option V)

/-- `Storage::with_enforcing_footprint_and_map` of `test.rs`. -/
def Storage.with_enforcing_footprint_and_map {K V : Type}
    (f : Footprint K) (m : K → Option (Option V)) : Storage K V :=
  ⟨f, m⟩

/-- Modelled from the spec: `get` enforces read access on the footprint,
then looks the key up in the snapshot-plus-overlay. -/
def Storage.get {K V : Type} (s : Storage K V) (k : K) :
    Except StorageError V :=
  match s.footprint.enforce_access k AccessType.ReadOnly with
  | Except.error e => Except.error e
  | Except.ok _ =>
    match s.map k with
    | some (some v) => Except.ok v
    | _ => Except.error StorageError.missingEntry

/-- Modelled from the spec: `has` enforces read access, then reports
whether a live (non-tombstoned) entry is present. -/
def Storage.has {K V : Type} (s : Storage K V) (k : K) :
    Except StorageError Bool :=
  match s.footprint.enforce_access k AccessType.ReadOnly with
  | Except.error e => Except.error e
  | Except.ok _ =>
    match s.map k with
    | some (some _) => Except.ok true
    | _ => Except.ok false

/-- Modelled from the spec: `put` enforces write access, then records the
new value in the overlay. -/
def Storage.put {K V : Type} [DecidableEq K] (s : Storage K V) (k : K)
    (v : V) : Except StorageError (Storage K V) :=
  match s.footprint.enforce_access k AccessType.ReadWrite with
  | Except.error e => Except.error e
  | Except.ok _ =>
    Except.ok ⟨s.footprint, fun k2 => if k2 = k then some (some v) else s.map k2⟩

/-- Modelled from the spec: `del` enforces write access, then records an
explicit tombstone in the overlay. -/
def Storage.del {K V : Type} [DecidableEq K] (s : Storage K V) (k : K) :
    Except StorageError (Storage K V) :=
  match s.footprint.enforce_access k AccessType.ReadWrite with
  | Except.error e => Except.error e
  | Except.ok _ =>
    Except.ok ⟨s.footprint, fun k2 => if k2 = k then some none else s.map k2⟩

/-- Claim C2: for a Storage whose enforcing Footprint declares k1 as
ReadOnly (with k1 present in the snapshot): get(k1) succeeds, put(k1)
and del(k1) fail with AccessViolation, and every operation (get, put,
has, del) on a key k2 absent from the Footprint fails with
AccessViolation regardless of what the underlying snapshot holds at k2. -/
theorem c2_footprint_gating {K V : Type} [DecidableEq K] (s : Storage K V)
    (k1 k2 : K) (v : V)
    (h1 : s.footprint.find k1 = some AccessType.ReadOnly)
    (hv : s.map k1 = some (some v))
    (h2 : s.footprint.find k2 = none) :
    s.get k1 = Except.ok v ∧
    (∀ w : V, s.put k1 w = Except.error StorageError.accessViolation) ∧
    s.del k1 = Except.error StorageError.accessViolation ∧
    s.get k2 = Except.error StorageError.accessViolation ∧
    (∀ w : V, s.put k2 w = Except.error StorageError.accessViolation) ∧
    s.has k2 = Except.error StorageError.accessViolation ∧
    s.del k2 = Except.error StorageError.accessViolation := by
  refine ⟨?_, ?_, ?_, ?_, ?_, ?_, ?_⟩ <;> (try intro w) <;>
    simp [Storage.get, Storage.put, Storage.del, Storage.has,
      Footprint.enforce_access, h1, h2, hv]

/-- Concrete footprint for the C2 witness: key 0 declared ReadOnly, all
other keys undeclared. -/
def footprintC2 : Footprint Nat :=
  ⟨fun k => if k = 0 then some AccessType.ReadOnly else none⟩

/-- Concrete storage for the C2 witness: key 0 maps to entry 7, all other
keys never loaded. -/
def storageC2 : Storage Nat Nat :=
  Storage.with_enforcing_footprint_and_map footprintC2
    (fun k => if k = 0 then some (some 7) else none)

theorem c2_footprint_gating_witness :
    (storageC2.footprint.find 0 = some AccessType.ReadOnly ∧
      storageC2.map 0 = some (some 7) ∧
      storageC2.footprint.find 1 = none) ∧
    (storageC2.get 0 = Except.ok 7 ∧
      (∀ w : Nat, storageC2.put 0 w = Except.error StorageError.accessViolation) ∧
      storageC2.del 0 = Except.error StorageError.accessViolation ∧
      storageC2.get 1 = Except.error StorageError.accessViolation ∧
      (∀ w : Nat, storageC2.put 1 w = Except.error StorageError.accessViolation) ∧
      storageC2.has 1 = Except.error StorageError.accessViolation ∧
      storageC2.del 1 = Except.error StorageError.accessViolation) :=
  ⟨⟨rfl, rfl, rfl⟩, c2_footprint_gating storageC2 0 1 7 rfl rfl rfl⟩

/-- Claim C7: for every key k, record_access(k, ReadOnly) followed by
record_access(k, ReadWrite) leaves k mapped to ReadWrite, and the reverse
order also leaves k mapped to ReadWrite: a downgrade request from
ReadWrite to ReadOnly never takes effect within a transaction. -/
theorem c7_record_access_no_downgrade {K : Type} [DecidableEq K]
    (f : Footprint K) (k : K) :
    ((f.record_access k AccessType.ReadOnly).record_access k
        AccessType.ReadWrite).find k = some AccessType.ReadWrite ∧
    ((f.record_access k AccessType.ReadWrite).record_access k
        AccessType.ReadOnly).find k = some AccessType.ReadWrite := by
  constructor <;>
    (cases hf : f.find k with
      | none => simp [Footprint.record_access, hf]
      | some m => cases m <;> simp [Footprint.record_access, hf])

/-- Terminal statuses of the error taxonomy: BudgetExceeded,
AccessViolation, host-object errors such as VecIndexOutOfBound, and
opaque contract-level errors. -/
inductive ErrStatus where
  | budgetExceeded
  | accessViolation
  | vecIndexOutOfBound
  | contractError (code : Nat)
deriving DecidableEq

/-- Modelled from the spec: a host-side computation inside one execution:
a pure value, a vec_get host call against a vector of the given length, a
host operation raising a given terminal status, or a cross-contract call
frame that invokes a callee and then continues with further work. -/
inductive HostExpr where
  | lit (v : Nat)
  | vecGet (len idx : Nat)
  | raiseStatus (s : ErrStatus)
  | call (callee rest : HostExpr)

/-- Modelled from the spec: evaluation of a host computation.  Terminal
errors short-circuit synchronously through every nested frame: a frame
whose callee fails propagates the callee's status unchanged and performs
none of its remaining work. -/
def evalHost : HostExpr → Except ErrStatus Nat
  | HostExpr.lit v => Except.ok v
  | HostExpr.vecGet len idx =>
    if idx < len then Except.ok 0 else Except.error ErrStatus.vecIndexOutOfBound
  | HostExpr.raiseStatus s => Except.error s
  | HostExpr.call callee rest =>
    match evalHost callee with
    | Except.ok _ => evalHost rest
    | Except.error s => Except.error s

/-- Modelled from the spec: `try_call` at the top level returns the
callee's failure status as a first-class status value instead of
trapping. -/
def tryCall (e : HostExpr) : ErrStatus ⊕ Nat :=
  match evalHost e with
  | Except.ok v => Sum.inr v
  | Except.error s => Sum.inl s

/-- n nested cross-contract frames around e; every intermediate frame
still has further work r pending after its callee returns. -/
def nestCalls (r e : HostExpr) : Nat → HostExpr
  | 0 => e
  | n + 1 => HostExpr.call (nestCalls r e n) r

/-- Claim C8: an error status raised inside a nested (cross-contract)
callee propagates synchronously and unchanged through every intermediate
call frame to the top-level invocation — the top level observes the very
status the innermost frame raised (as the value returned by try_call),
and no intermediate frame swallows it and continues with its pending
work. -/
theorem c8_error_propagation (n : Nat) (e r : HostExpr) (s : ErrStatus)
    (h : evalHost e = Except.error s) :
    evalHost (nestCalls r e n) = Except.error s ∧
    tryCall (nestCalls r e n) = Sum.inl s := by
  have hmain : evalHost (nestCalls r e n) = Except.error s := by
    induction n with
    | zero => exact h
    | succ m ih => simp [nestCalls, evalHost, ih]
  exact ⟨hmain, by simp [tryCall, hmain]⟩

theorem c8_error_propagation_witness :
    evalHost (HostExpr.vecGet 0 0) = Except.error ErrStatus.vecIndexOutOfBound ∧
    (evalHost (nestCalls (HostExpr.lit 1) (HostExpr.vecGet 0 0) 2) =
        Except.error ErrStatus.vecIndexOutOfBound ∧
      tryCall (nestCalls (HostExpr.lit 1) (HostExpr.vecGet 0 0) 2) =
        Sum.inl ErrStatus.vecIndexOutOfBound) :=
  ⟨rfl, c8_error_propagation 2 (HostExpr.vecGet 0 0) (HostExpr.lit 1)
    ErrStatus.vecIndexOutOfBound rfl⟩
